import Mathlib

/-!
# QgsFeature / QgsAttributes / QgsComposerFrame

A shallow embedding of `src/core/qgsfeature.h` and
`src/core/composer/qgscomposerframe.cpp`, with the properties of the
feature value model stated and proved over it.

Conventions of the embedding:

* C++ `int` and `qint64` values are `Int`; containers are `List`s indexed from 0.
* `QVariant` belongs to Qt, so the code is embedded over any type `V` that
  offers the three `QVariant` members the code calls (`QVariantOps`).
* `qreal` coordinates are rationals: the frame code only compares and selects
  them, it does no arithmetic on them.
-/

namespace Qgs

/-! ## Qt collaborators -/

/-- The members of Qt's `QVariant` used by the feature code: `operator==`,
`isNull()` and the default constructor `QVariant()`. -/
class QVariantOps (V : Type) where
  /-- The model of `QVariant::operator==`. -/
  eq : V → V → Bool
  /-- The model of `QVariant::isNull()`. -/
  isNull : V → Bool
  /-- The model of `QVariant()`, the invalid variant. -/
  invalid : V

/-- A small concrete variant type for evaluating the definitions: the invalid
variant, integers and strings, and for each of the two types its null value
(an integer or a string that was never set). -/
inductive SampleVariant where
  | invalid
  | nullInt
  | int (value : Int)
  | nullString
  | string (value : String)
  deriving DecidableEq, Repr

/-- The value a `SampleVariant` stores underneath: a null integer stores the
type default 0 and a null string stores the empty string. -/
def SampleVariant.stored : SampleVariant → Option (Int ⊕ String)
  | .invalid => none
  | .nullInt => some (.inl 0)
  | .int v => some (.inl v)
  | .nullString => some (.inr "")
  | .string v => some (.inr v)

/-- Value comparison of `SampleVariant` in the manner the source comment
describes for Qt ("does not handle NULL values for certain types (like int)"):
the type and the stored value are compared, the null state is not. -/
def SampleVariant.valueEq (x y : SampleVariant) : Bool :=
  decide (x.stored = y.stored)

/-- The null flag of a `SampleVariant`; the invalid variant is null. -/
def SampleVariant.nullFlag : SampleVariant → Bool
  | .invalid => true
  | .nullInt => true
  | .int _ => false
  | .nullString => true
  | .string _ => false

instance : QVariantOps SampleVariant where
  eq := SampleVariant.valueEq
  isNull := SampleVariant.nullFlag
  invalid := SampleVariant.invalid

/-! ## qgsfeature.h : feature ids -/

/-- The model of `typedef qint64 QgsFeatureId`. -/
abbrev QgsFeatureId := Int

/-- The range of `qint64`. -/
def isQint64 (n : Int) : Prop := -(2 ^ 63) ≤ n ∧ n < 2 ^ 63

instance (n : Int) : Decidable (isQint64 n) := by unfold isQint64; infer_instance

/-- The macro `#define FID_IS_NEW(fid) (fid<0)`. -/
def FID_IS_NEW (fid : QgsFeatureId) : Bool := decide (fid < 0)

/-! ## qgsfeature.h : QgsAttributes -/

/-- The model of `class QgsAttributes : public QVector<QVariant>`. -/
abbrev QgsAttributes (V : Type) := List V

namespace QgsAttributes

variable {V : Type} [QVariantOps V]

/-- The slot test made in one round of the comparison loop. -/
def slotsAgree (x y : V) : Bool :=
  QVariantOps.eq x y && (QVariantOps.isNull x == QVariantOps.isNull y)

/-- The `while ( i != b )` loop of `operator==`. The argument is the offset of
the pointer `i` from the start `b` (and of `j` from `v.constData()`); each
round decrements both pointers and then compares the two slots they point to. -/
def eqLoop (self v : QgsAttributes V) : Nat → Bool
  | 0 => true
  | k + 1 =>
    match self[k]?, v[k]? with
    | some x, some y =>
      if !(QVariantOps.eq x y && (QVariantOps.isNull x == QVariantOps.isNull y)) then false
      else eqLoop self v k
    | _, _ => false

/-- The model of `bool QgsAttributes::operator==( const QgsAttributes &v ) const`. -/
def opEq (self v : QgsAttributes V) : Bool :=
  if self.length != v.length then false
  else eqLoop self v self.length

/-- The model of `operator!=`, which is `!( *this == v )`. -/
def opNe (self v : QgsAttributes V) : Bool := !(opEq self v)

end QgsAttributes

/-! ## qgsfeature.h : QgsFeature

The header declares `QgsFeature` and its shared pointer `d`; the member
functions are defined in `qgsfeature.cpp`, which is not among the sources.
Their bodies are modelled from the specification (sections 3, 4.2 and 4.3) and
from the documentation comments of the declarations. -/

/-- Modelled from the spec: the field schema `QgsFields` (declared in
`qgsfields.h`, which is not among the sources), an "ordered sequence of field
descriptors" of which the feature consumes the field count and the
name-to-index lookup. Only the names of the descriptors are kept. -/
structure QgsFields where
  names : List String
  deriving DecidableEq, Repr

/-- Modelled from the spec: `fieldCount() -> int` of the field schema. -/
def QgsFields.count (fs : QgsFields) : Int := fs.names.length

/-- Modelled from the spec: `indexOfName(name) -> index or not-found` of the
field schema; "not found" is -1, as the header documents for `fieldNameIndex`. -/
def QgsFields.indexFromName (fs : QgsFields) (name : String) : Int :=
  if fs.names.indexOf name < fs.names.length then (fs.names.indexOf name : Int) else -1

/-- Modelled from the spec: the Feature Core `{ identity, attributeVector,
geometryHandle (optional), fieldSchemaReference (optional), validityFlag }`,
the class `QgsFeaturePrivate` that the header only forward-declares. `G` is the
type of the geometry collaborator. -/
structure QgsFeaturePrivate (V G : Type) where
  fid : QgsFeatureId
  attributes : QgsAttributes V
  geometry : Option G
  fields : Option QgsFields
  valid : Bool
  deriving DecidableEq

/-- Modelled from the spec: a reference-counted Feature Core, the target of
the shared pointer `QgsFeature::d`. -/
structure SharedCore (V G : Type) where
  ref : Nat
  core : QgsFeaturePrivate V G
  deriving DecidableEq

/-- The memory holding the Feature Cores: the address of a core is its
position, and a core whose count has dropped to 0 has been destroyed. -/
abbrev CoreStore (V G : Type) := List (SharedCore V G)

/-- The model of `class QgsFeature`: its only data member is the pointer
`QExplicitlySharedDataPointer<QgsFeaturePrivate> d`. -/
structure QgsFeature where
  d : Nat
  deriving DecidableEq, Repr

namespace CoreStore

variable {V G : Type}

/-- Applies `h` to the cell at address `p`, when there is one. -/
def updateCell (s : CoreStore V G) (p : Nat) (h : SharedCore V G → SharedCore V G) :
    CoreStore V G :=
  match s[p]? with
  | some c => s.set p (h c)
  | none => s

/-- The reference count of the core at address `p`. -/
def refCount (s : CoreStore V G) (p : Nat) : Nat :=
  match s[p]? with
  | some c => c.ref
  | none => 0

/-- The contents of the core at address `p`. -/
def coreAt (s : CoreStore V G) (p : Nat) : Option (QgsFeaturePrivate V G) :=
  match s[p]? with
  | some c => some c.core
  | none => none

/-- Increments the reference count of the core at `p`. -/
def incRef (s : CoreStore V G) (p : Nat) : CoreStore V G :=
  updateCell s p (fun c => { c with ref := c.ref + 1 })

/-- Decrements the reference count of the core at `p`. -/
def decRef (s : CoreStore V G) (p : Nat) : CoreStore V G :=
  updateCell s p (fun c => { c with ref := c.ref - 1 })

/-- Writes through the pointer `p`: replaces the contents of the core at `p`. -/
def modifyCore (s : CoreStore V G) (p : Nat)
    (g : QgsFeaturePrivate V G → QgsFeaturePrivate V G) : CoreStore V G :=
  updateCell s p (fun c => { c with core := g c.core })

end CoreStore

namespace QgsFeaturePrivate

variable {V G : Type} [QVariantOps V]

/-- Modelled from the spec: the core of a default-constructed feature, with
the validity flag "set false by default-construction with no fields". -/
def init (id : QgsFeatureId) : QgsFeaturePrivate V G :=
  { fid := id, attributes := [], geometry := none, fields := none, valid := false }

/-- Modelled from the spec: the core write of `setId`. -/
def setId (c : QgsFeaturePrivate V G) (id : QgsFeatureId) : QgsFeaturePrivate V G :=
  { c with fid := id }

/-- Modelled from the spec: the core write of `setAttributes`; "the feature
will be valid after". -/
def setAttributes (c : QgsFeaturePrivate V G) (attrs : QgsAttributes V) :
    QgsFeaturePrivate V G :=
  { c with attributes := attrs, valid := true }

/-- Modelled from the spec: whether `field` is a slot index, "negative or not
less than size" being out of range. -/
def inRange (c : QgsFeaturePrivate V G) (field : Int) : Bool :=
  !(decide (field < 0) || decide (field ≥ (c.attributes.length : Int)))

/-- Modelled from the spec: the core write of `setAttribute(fieldIndex, value)`:
"writes the slot, marks validity true". -/
def writeSlot (c : QgsFeaturePrivate V G) (field : Int) (attr : V) : QgsFeaturePrivate V G :=
  { c with attributes := c.attributes.set field.toNat attr, valid := true }

/-- Modelled from the spec: the core write of `initAttributes`: "a fresh
all-null vector" of `fieldCount` slots, each a default-constructed variant. -/
def initAttributes (c : QgsFeaturePrivate V G) (fieldCount : Int) : QgsFeaturePrivate V G :=
  { c with attributes := List.replicate fieldCount.toNat QVariantOps.invalid }

/-- Modelled from the spec: the core write of `deleteAttribute`: "removes the
slot and shifts subsequent slots down by one position". -/
def removeSlot (c : QgsFeaturePrivate V G) (field : Int) : QgsFeaturePrivate V G :=
  { c with attributes := c.attributes.eraseIdx field.toNat }

/-- Modelled from the spec: the core write of `setValid`. -/
def setValid (c : QgsFeaturePrivate V G) (validity : Bool) : QgsFeaturePrivate V G :=
  { c with valid := validity }

/-- Modelled from the spec: the core write of `setGeometry`; "the feature will
be valid after". -/
def setGeometry (c : QgsFeaturePrivate V G) (geometry : G) : QgsFeaturePrivate V G :=
  { c with geometry := some geometry, valid := true }

/-- Modelled from the spec: the core write of `clearGeometry`. -/
def clearGeometry (c : QgsFeaturePrivate V G) : QgsFeaturePrivate V G :=
  { c with geometry := none }

/-- Modelled from the spec: the core write of `setFields(schema, reinitialize)`:
"rebinds the schema reference; if `reinitialize` is true, replaces the attribute
vector with a fresh all-null vector sized to the new schema"; the validity flag
is "forced true by any successful ... `setFields`". -/
def setFields (c : QgsFeaturePrivate V G) (fields : QgsFields) (initAttrs : Bool) :
    QgsFeaturePrivate V G :=
  let c1 := { c with fields := some fields, valid := true }
  if initAttrs then initAttributes c1 fields.count else c1

/-- Modelled from the spec: `fieldNameIndex`, which "returns -1 if field does
not exist or field map is not associated". -/
def fieldNameIndex (c : QgsFeaturePrivate V G) (fieldName : String) : Int :=
  match c.fields with
  | some fs => fs.indexFromName fieldName
  | none => -1

end QgsFeaturePrivate

namespace QgsFeature

variable {V G : Type} [QVariantOps V]

/-- Modelled from the spec: `QgsFeature( QgsFeatureId id )`, which allocates a
core owned by the new handle alone. -/
def construct (s : CoreStore V G) (id : QgsFeatureId) : CoreStore V G × QgsFeature :=
  (s ++ [⟨1, QgsFeaturePrivate.init id⟩], ⟨s.length⟩)

/-- Modelled from the spec: the copy constructor; "copying a Handle increments
the shared reference count and copies no attribute data". -/
def copyConstruct (s : CoreStore V G) (rhs : QgsFeature) : CoreStore V G × QgsFeature :=
  (s.incRef rhs.d, ⟨rhs.d⟩)

/-- Modelled from the spec: the assignment operator `self = rhs`: the handle
takes a share of the core of `rhs` and releases the core it held; assigning a
handle that already shares the core changes nothing. -/
def assign (s : CoreStore V G) (self rhs : QgsFeature) : CoreStore V G × QgsFeature :=
  if rhs.d = self.d then (s, self)
  else ((s.incRef rhs.d).decRef self.d, ⟨rhs.d⟩)

/-- Modelled from the spec: `detachForWrite()`: "if reference count > 1,
allocate a new Core as a deep copy of the current contents ... and rebind the
calling Handle to the new Core; if reference count == 1, no-op". -/
def detachForWrite (s : CoreStore V G) (self : QgsFeature) : CoreStore V G × QgsFeature :=
  match s[self.d]? with
  | some c =>
    if c.ref > 1 then ((s.decRef self.d) ++ [⟨1, c.core⟩], ⟨s.length⟩)
    else (s, self)
  | none => (s, self)

/-- Modelled from the spec: a mutating operation "first checks whether the
Core is exclusively owned; if shared, it clones the Core ... before applying
the mutation". -/
def mutate (s : CoreStore V G) (self : QgsFeature)
    (g : QgsFeaturePrivate V G → QgsFeaturePrivate V G) : CoreStore V G × QgsFeature :=
  ((detachForWrite s self).1.modifyCore (detachForWrite s self).2.d g, (detachForWrite s self).2)

/-- Modelled from the spec: `id()`, read from the core. -/
def id (s : CoreStore V G) (self : QgsFeature) : Option QgsFeatureId :=
  (s.coreAt self.d).map (fun c => c.fid)

/-- Modelled from the spec: `attributes()`, read from the core. -/
def attributes (s : CoreStore V G) (self : QgsFeature) : Option (QgsAttributes V) :=
  (s.coreAt self.d).map (fun c => c.attributes)

/-- Modelled from the spec: `geometry()`, read from the core; the inner `none`
is the feature without geometry. -/
def geometry (s : CoreStore V G) (self : QgsFeature) : Option (Option G) :=
  (s.coreAt self.d).map (fun c => c.geometry)

/-- Modelled from the spec: `fields()`, read from the core. -/
def fields (s : CoreStore V G) (self : QgsFeature) : Option (Option QgsFields) :=
  (s.coreAt self.d).map (fun c => c.fields)

/-- Modelled from the spec: `isValid()`, read from the core. -/
def isValid (s : CoreStore V G) (self : QgsFeature) : Option Bool :=
  (s.coreAt self.d).map (fun c => c.valid)

/-- Everything the getters tell about a feature: id, attributes, geometry,
fields and validity. -/
def observe (s : CoreStore V G) (self : QgsFeature) :
    Option QgsFeatureId × Option (QgsAttributes V) × Option (Option G) ×
      Option (Option QgsFields) × Option Bool :=
  (id s self, attributes s self, geometry s self, fields s self, isValid s self)

/-- Modelled from the spec: `void setId( QgsFeatureId id )`. -/
def setId (s : CoreStore V G) (self : QgsFeature) (id : QgsFeatureId) :
    CoreStore V G × QgsFeature :=
  mutate s self (fun c => c.setId id)

/-- Modelled from the spec: `void setAttributes( const QgsAttributes &attrs )`. -/
def setAttributes (s : CoreStore V G) (self : QgsFeature) (attrs : QgsAttributes V) :
    CoreStore V G × QgsFeature :=
  mutate s self (fun c => c.setAttributes attrs)

/-- Modelled from the spec: `bool setAttribute( int field, const QVariant &attr )`:
"fails (returns failure) if `fieldIndex` is out of range ...; on success,
detaches if needed, writes the slot, marks validity true". -/
def setAttribute (s : CoreStore V G) (self : QgsFeature) (field : Int) (attr : V) :
    Bool × CoreStore V G × QgsFeature :=
  match s.coreAt self.d with
  | some c =>
    if c.inRange field then (true, mutate s self (fun c => c.writeSlot field attr))
    else (false, s, self)
  | none => (false, s, self)

/-- Modelled from the spec: `bool setAttribute( const QString &name, const QVariant &value )`:
"resolves name to index via the bound Field Schema; fails ... if no schema is
bound or the name is absent; otherwise delegates to the index form". -/
def setAttributeByName (s : CoreStore V G) (self : QgsFeature) (name : String) (value : V) :
    Bool × CoreStore V G × QgsFeature :=
  match s.coreAt self.d with
  | some c =>
    if c.fieldNameIndex name = -1 then (false, s, self)
    else setAttribute s self (c.fieldNameIndex name) value
  | none => (false, s, self)

/-- Modelled from the spec: `void initAttributes( int fieldCount )`. -/
def initAttributes (s : CoreStore V G) (self : QgsFeature) (fieldCount : Int) :
    CoreStore V G × QgsFeature :=
  mutate s self (fun c => c.initAttributes fieldCount)

/-- Modelled from the spec: `void deleteAttribute( int field )`, which the
header declares without a return value: an out-of-range index "leaves the
vector's size and contents unchanged", an index in range "removes the slot". -/
def deleteAttribute (s : CoreStore V G) (self : QgsFeature) (field : Int) :
    Unit × CoreStore V G × QgsFeature :=
  match s.coreAt self.d with
  | some c =>
    if c.inRange field then ((), mutate s self (fun c => c.removeSlot field))
    else ((), s, self)
  | none => ((), s, self)

/-- Modelled from the spec: `bool deleteAttribute( const QString &name )`,
which returns "false if attribute name could not be converted to index" and
otherwise proceeds as the index form does. -/
def deleteAttributeByName (s : CoreStore V G) (self : QgsFeature) (name : String) :
    Bool × CoreStore V G × QgsFeature :=
  match s.coreAt self.d with
  | some c =>
    if c.fieldNameIndex name = -1 then (false, s, self)
    else if c.inRange (c.fieldNameIndex name) then
      (true, mutate s self (fun c1 => c1.removeSlot (c.fieldNameIndex name)))
    else (false, s, self)
  | none => (false, s, self)

/-- Modelled from the spec: `void setValid( bool validity )`. -/
def setValid (s : CoreStore V G) (self : QgsFeature) (validity : Bool) :
    CoreStore V G × QgsFeature :=
  mutate s self (fun c => c.setValid validity)

/-- Modelled from the spec: `void setGeometry( const QgsGeometry &geometry )`. -/
def setGeometry (s : CoreStore V G) (self : QgsFeature) (geometry : G) :
    CoreStore V G × QgsFeature :=
  mutate s self (fun c => c.setGeometry geometry)

/-- Modelled from the spec: `void clearGeometry()`. -/
def clearGeometry (s : CoreStore V G) (self : QgsFeature) : CoreStore V G × QgsFeature :=
  mutate s self (fun c => c.clearGeometry)

/-- Modelled from the spec: `void setFields( const QgsFields &fields, bool initAttributes )`. -/
def setFields (s : CoreStore V G) (self : QgsFeature) (fields : QgsFields) (initAttrs : Bool) :
    CoreStore V G × QgsFeature :=
  mutate s self (fun c => c.setFields fields initAttrs)

end QgsFeature

/-- The calls that write to a feature, with their arguments. -/
inductive Setter (V G : Type) where
  | setId (id : QgsFeatureId)
  | setAttributes (attrs : QgsAttributes V)
  | setAttribute (field : Int) (attr : V)
  | setAttributeByName (name : String) (value : V)
  | initAttributes (fieldCount : Int)
  | deleteAttribute (field : Int)
  | deleteAttributeByName (name : String)
  | setValid (validity : Bool)
  | setGeometry (geometry : G)
  | clearGeometry
  | setFields (fields : QgsFields) (initAttrs : Bool)

/-- Performs a writing call on the handle `self`; the result is the memory
after the call and the handle, which the call may have rebound. -/
def Setter.run {V G : Type} [QVariantOps V] (op : Setter V G) (s : CoreStore V G)
    (self : QgsFeature) : CoreStore V G × QgsFeature :=
  match op with
  | .setId id => QgsFeature.setId s self id
  | .setAttributes attrs => QgsFeature.setAttributes s self attrs
  | .setAttribute field attr => (QgsFeature.setAttribute s self field attr).2
  | .setAttributeByName name value => (QgsFeature.setAttributeByName s self name value).2
  | .initAttributes fieldCount => QgsFeature.initAttributes s self fieldCount
  | .deleteAttribute field => (QgsFeature.deleteAttribute s self field).2
  | .deleteAttributeByName name => (QgsFeature.deleteAttributeByName s self name).2
  | .setValid validity => QgsFeature.setValid s self validity
  | .setGeometry geometry => QgsFeature.setGeometry s self geometry
  | .clearGeometry => QgsFeature.clearGeometry s self
  | .setFields fields initAttrs => QgsFeature.setFields s self fields initAttrs

/-! ## qgsfeature.h : the stream operators

`operator<<` and `operator>>` are declared in the header and defined
elsewhere; they are modelled from section 4.4 of the specification. A stream
is the list of its bytes. The specification fixes the order of the parts and
the width of the identity (64 bits); the slot count and the type tag are
written as 32-bit numbers and the two markers as one byte each. -/

/-- Modelled from the spec: the bytes of an unsigned number of `w` bytes, most
significant byte first. -/
def putUInt : Nat → Nat → List Nat
  | 0, _ => []
  | w + 1, n => (n / 256 ^ w % 256) :: putUInt w n

/-- Modelled from the spec: reads an unsigned number of `w` bytes; fails when
the stream is too short. -/
def getUInt : Nat → List Nat → Option (Nat × List Nat)
  | 0, bs => some (0, bs)
  | _ + 1, [] => none
  | w + 1, b :: bs =>
    match getUInt w bs with
    | some (n, rest) => some (b * 256 ^ w + n, rest)
    | none => none

/-- Modelled from the spec: the eight bytes of a signed 64-bit integer, in
two's complement. -/
def putInt64 (n : Int) : List Nat := putUInt 8 (n % 2 ^ 64).toNat

/-- Modelled from the spec: reads a signed 64-bit integer. -/
def getInt64 (bs : List Nat) : Option (Int × List Nat) :=
  match getUInt 8 bs with
  | some (u, rest) => some (if u < 2 ^ 63 then (u : Int) else (u : Int) - 2 ^ 64, rest)
  | none => none

/-- Modelled from the spec: writes the elements of a sequence one after the
other. -/
def putMany {α : Type} (put : α → List Nat) : List α → List Nat
  | [] => []
  | x :: xs => put x ++ putMany put xs

/-- Modelled from the spec: reads `n` elements one after the other; fails as
soon as one of them fails. -/
def getMany {α : Type} (get : List Nat → Option (α × List Nat)) :
    Nat → List Nat → Option (List α × List Nat)
  | 0, bs => some ([], bs)
  | n + 1, bs =>
    match get bs with
    | none => none
    | some (x, rest) =>
      match getMany get n rest with
      | none => none
      | some (xs, rest1) => some (x :: xs, rest1)

/-- Modelled from the spec: what the stream format needs from the attribute
values, "a type tag" and "the type-specific payload" of each slot, together
with the null slot of each type. These belong to the variant type, not to the
feature. -/
structure SlotCodec (V : Type) where
  typeTag : V → Nat
  nullOf : Nat → Option V
  putPayload : V → List Nat
  getPayload : Nat → List Nat → Option (V × List Nat)

/-- Modelled from the spec: the geometry collaborator's "serialize/deserialize
pair". -/
structure GeometryCodec (G : Type) where
  putGeometry : G → List Nat
  getGeometry : List Nat → Option (G × List Nat)

namespace SlotCodec

variable {V : Type} [QVariantOps V]

/-- Modelled from the spec: one slot on the stream: "a type tag, the
null-marker, and (if not null) the type-specific payload". -/
def putSlot (k : SlotCodec V) (v : V) : List Nat :=
  putUInt 4 (k.typeTag v) ++
    (if QVariantOps.isNull v then [1] else 0 :: k.putPayload v)

/-- Modelled from the spec: reads one slot; a tag or marker that cannot be
interpreted is a malformed stream. -/
def getSlot (k : SlotCodec V) (bs : List Nat) : Option (V × List Nat) :=
  match getUInt 4 bs with
  | none => none
  | some (_, []) => none
  | some (t, marker :: rest) =>
    if marker = 1 then
      match k.nullOf t with
      | some v => some (v, rest)
      | none => none
    else if marker = 0 then k.getPayload t rest
    else none

/-- What the round trip needs of one slot value: its tag fits 32 bits, a null
value is the null slot of its type, and the payload of a value that is not
null reads back as the value. -/
structure Faithful (k : SlotCodec V) (v : V) : Prop where
  tag_lt : k.typeTag v < 2 ^ 32
  null_canon : QVariantOps.isNull v = true → k.nullOf (k.typeTag v) = some v
  payload : QVariantOps.isNull v = false →
    ∀ rest, k.getPayload (k.typeTag v) (k.putPayload v ++ rest) = some (v, rest)

end SlotCodec

namespace QgsFeaturePrivate

variable {V G : Type} [QVariantOps V]

/-- Modelled from the spec: the geometry part of `operator<<`: "a presence
flag and payload for the geometry handle". -/
def putOptGeometry (kg : GeometryCodec G) : Option G → List Nat
  | some g => 1 :: kg.putGeometry g
  | none => [0]

/-- Modelled from the spec: `operator<<`: "writes, in order: identity, slot
count, then for each slot a type tag, the null-marker, and (if not null) the
type-specific payload, then a presence flag and payload for the geometry
handle". -/
def serialize (k : SlotCodec V) (kg : GeometryCodec G) (c : QgsFeaturePrivate V G) :
    List Nat :=
  putInt64 c.fid ++
    (putUInt 4 c.attributes.length ++
      (putMany k.putSlot c.attributes ++ putOptGeometry kg c.geometry))

/-- Modelled from the spec: the geometry part of `operator>>`: the presence
flag, then the geometry when it is present. -/
def getOptGeometry (kg : GeometryCodec G) : List Nat → Option (Option G × List Nat)
  | [] => none
  | flag :: rest =>
    if flag = 0 then some (none, rest)
    else if flag = 1 then
      match kg.getGeometry rest with
      | some (g, rest1) => some (some g, rest1)
      | none => none
    else none

/-- Modelled from the spec: `operator>>`: reads the parts in the order
`serialize` writes them and builds a feature "not bound to any schema" with
the calls of the feature's own interface; a malformed stream yields no
feature at all. The second component is the rest of the stream. -/
def deserialize (k : SlotCodec V) (kg : GeometryCodec G) (bs : List Nat) :
    Option (QgsFeaturePrivate V G × List Nat) :=
  match getInt64 bs with
  | none => none
  | some (fid, bs1) =>
    match getUInt 4 bs1 with
    | none => none
    | some (count, bs2) =>
      match getMany k.getSlot count bs2 with
      | none => none
      | some (attrs, bs3) =>
        match getOptGeometry kg bs3 with
        | none => none
        | some (none, bs4) => some (setAttributes (init fid) attrs, bs4)
        | some (some g, bs4) => some (setGeometry (setAttributes (init fid) attrs) g, bs4)

end QgsFeaturePrivate

/-! ## Sample data -/

/-- The schema of the specification's scenario: `["name":string, "pop":int]`. -/
def sampleFields : QgsFields := ⟨["name", "pop"]⟩

/-- A geometry type for evaluating the definitions: the geometry's own bytes. -/
abbrev SampleGeometry := List Nat

/-- The memory after `QgsFeature f( 7 );`, with the handle `f`. -/
def sampleState0 : CoreStore SampleVariant SampleGeometry × QgsFeature :=
  QgsFeature.construct [] 7

/-- The memory after `f.setFields( sampleFields, true );`, with the handle `f`. -/
def sampleState1 : CoreStore SampleVariant SampleGeometry × QgsFeature :=
  QgsFeature.setFields sampleState0.1 sampleState0.2 sampleFields true

/-- The memory after `f.setAttribute( "name", "Springfield" );`, with the handle `f`. -/
def sampleState : CoreStore SampleVariant SampleGeometry × QgsFeature :=
  (QgsFeature.setAttributeByName sampleState1.1 sampleState1.2
    "name" (SampleVariant.string "Springfield")).2

/-- The memory of `sampleState`. -/
def sampleStore : CoreStore SampleVariant SampleGeometry := sampleState.1

/-- The handle of `sampleState`. -/
def sampleFeature : QgsFeature := sampleState.2

/-- The memory after a second feature `QgsFeature g( 8 );` has been
constructed next to `sampleFeature`, with the handle `g`. -/
def sampleState2 : CoreStore SampleVariant SampleGeometry × QgsFeature :=
  QgsFeature.construct sampleStore 8

/-- The core that `sampleFeature` points to. -/
def sampleCore : QgsFeaturePrivate SampleVariant SampleGeometry :=
  { fid := 7,
    attributes := [SampleVariant.string "Springfield", SampleVariant.invalid],
    geometry := none, fields := some sampleFields, valid := true }

/-! ## A codec for the sample types -/

/-- The type tag of a `SampleVariant`: 0 for the invalid variant, 2 for
integers and 10 for strings. -/
def SampleVariant.typeTag : SampleVariant → Nat
  | .invalid => 0
  | .nullInt => 2
  | .int _ => 2
  | .nullString => 10
  | .string _ => 10

/-- The null `SampleVariant` of a type tag; other tags cannot be interpreted. -/
def SampleVariant.nullOf (t : Nat) : Option SampleVariant :=
  if t = 0 then some .invalid
  else if t = 2 then some .nullInt
  else if t = 10 then some .nullString
  else none

/-- Writes one character as its code point. -/
def SampleVariant.putChar (c : Char) : List Nat := putUInt 4 c.toNat

/-- The payload of a `SampleVariant`: an integer as a signed 64-bit number, a
string as the count of its characters followed by their code points. -/
def SampleVariant.putPayload : SampleVariant → List Nat
  | .int v => putInt64 v
  | .string v => putUInt 4 v.length ++ putMany SampleVariant.putChar v.data
  | _ => []

/-- Reads one character, written as its code point. -/
def SampleVariant.getChar (bs : List Nat) : Option (Char × List Nat) :=
  match getUInt 4 bs with
  | some (n, rest) => some (Char.ofNat n, rest)
  | none => none

/-- Reads the payload that `SampleVariant.putPayload` writes for the type `t`. -/
def SampleVariant.getPayload (t : Nat) (bs : List Nat) : Option (SampleVariant × List Nat) :=
  if t = 2 then
    match getInt64 bs with
    | some (v, rest) => some (.int v, rest)
    | none => none
  else if t = 10 then
    match getUInt 4 bs with
    | some (n, bs1) =>
      match getMany SampleVariant.getChar n bs1 with
      | some (cs, rest) => some (.string (String.mk cs), rest)
      | none => none
    | none => none
  else none

/-- The values the sample codec can represent: integers of 64 bits and
strings of fewer than 2^32 characters. -/
def SampleVariant.representable : SampleVariant → Prop
  | .int v => isQint64 v
  | .string v => v.length < 2 ^ 32
  | _ => True

instance (v : SampleVariant) : Decidable v.representable := by
  cases v <;> unfold SampleVariant.representable <;> infer_instance

/-- The slot codec of `SampleVariant`. -/
def sampleSlotCodec : SlotCodec SampleVariant :=
  { typeTag := SampleVariant.typeTag, nullOf := SampleVariant.nullOf,
    putPayload := SampleVariant.putPayload, getPayload := SampleVariant.getPayload }

/-- The codec of `SampleGeometry`: the bytes behind "a self-describing length
prefix". -/
def sampleGeometryCodec : GeometryCodec SampleGeometry :=
  { putGeometry := fun g => putUInt 4 g.length ++ g,
    getGeometry := fun bs =>
      match getUInt 4 bs with
      | some (n, rest) => if n ≤ rest.length then some (rest.take n, rest.drop n) else none
      | none => none }

/-- The sample core with a geometry of three bytes attached. -/
def sampleCoreWithGeometry : QgsFeaturePrivate SampleVariant SampleGeometry :=
  QgsFeaturePrivate.setGeometry sampleCore [1, 2, 3]

/-! ## qgscomposerframe.cpp -/

/-- The model of Qt's `QSizeF`, with rational coordinates. -/
structure QSizeF where
  width : ℚ
  height : ℚ
  deriving DecidableEq

/-- The model of Qt's `QRectF`: the top-left corner and the size. -/
structure QRectF where
  x : ℚ
  y : ℚ
  width : ℚ
  height : ℚ
  deriving DecidableEq

/-- The model of `QRectF::top()`. -/
def QRectF.top (r : QRectF) : ℚ := r.y

/-- The model of `QRectF::setWidth`: only the width changes. -/
def QRectF.setWidth (r : QRectF) (w : ℚ) : QRectF := { r with width := w }

/-- The model of `QRectF::setHeight`: only the height changes. -/
def QRectF.setHeight (r : QRectF) (h : ℚ) : QRectF := { r with height := h }

/-- Qt's `qMax`, which is `(a < b) ? b : a`. -/
def qMax (a b : ℚ) : ℚ := if a < b then b else a

/-- The members of `QgsComposerMultiFrame` that `QgsComposerFrame` calls. A
frame is identified by a number standing for its `this` pointer. -/
structure QgsComposerMultiFrame where
  frameIndex : Nat → Int
  fixedFrameSize : Int → QSizeF
  minFrameSize : Int → QSizeF
  totalSize : QSizeF
  displayName : String

/-- The state of a `QgsComposerFrame` read by the functions embedded here:
`mMultiFrame` (a null pointer is `none`), `mSection`, the item id and the
identity of the frame itself. -/
structure QgsComposerFrame where
  self : Nat
  mMultiFrame : Option QgsComposerMultiFrame
  mSection : QRectF
  id : String

namespace QgsComposerFrame

/-- The model of `bool QgsComposerFrame::isEmpty() const`. -/
def isEmpty (f : QgsComposerFrame) : Bool :=
  match f.mMultiFrame with
  | none => true
  | some mf =>
    let multiFrameHeight := mf.totalSize.height
    if multiFrameHeight ≤ f.mSection.top then true
    else false

/-- The model of `void QgsComposerFrame::setSceneRect( const QRectF &rectangle )`:
the result is `fixedRect`, the rectangle handed to `QgsComposerItem::setSceneRect`. -/
def setSceneRect (f : QgsComposerFrame) (rectangle : QRectF) : QRectF :=
  let fixedRect := rectangle
  match f.mMultiFrame with
  | none => fixedRect
  | some mf =>
    let frameIndex := mf.frameIndex f.self
    let fixedSize := mf.fixedFrameSize frameIndex
    let fixedRect := if fixedSize.width > 0 then fixedRect.setWidth fixedSize.width else fixedRect
    let fixedRect := if fixedSize.height > 0 then fixedRect.setHeight fixedSize.height else fixedRect
    let minSize := mf.minFrameSize frameIndex
    let fixedRect := fixedRect.setWidth (qMax minSize.width fixedRect.width)
    let fixedRect := fixedRect.setHeight (qMax minSize.height fixedRect.height)
    fixedRect

/-- The model of `QString QgsComposerFrame::displayName() const`. `tr` is Qt's
translation lookup `QObject::tr`, which yields the source text itself when no
translation of it is installed. -/
def displayName (tr : String → String) (f : QgsComposerFrame) : String :=
  if !f.id.isEmpty then f.id
  else
    match f.mMultiFrame with
    | some mf => mf.displayName
    | none => tr "<frame>"

/-- A translation lookup for evaluating the definitions: a German translation
is installed for the text "<frame>", every other text has none. -/
def sampleGermanTr (sourceText : String) : String :=
  if sourceText = "<frame>" then "<Rahmen>" else sourceText

/-- A multiframe for evaluating the definitions, named "HTML 1". -/
def sampleMultiFrame : QgsComposerMultiFrame :=
  { frameIndex := fun _ => 0, fixedFrameSize := fun _ => ⟨0, 0⟩,
    minFrameSize := fun _ => ⟨0, 0⟩, totalSize := ⟨100, 200⟩, displayName := "HTML 1" }

/-- A frame for evaluating the definitions, with the given id and multiframe. -/
def sampleFrame (id : String) (mf : Option QgsComposerMultiFrame) : QgsComposerFrame :=
  { self := 0, mMultiFrame := mf, mSection := ⟨0, 0, 100, 50⟩, id := id }

end QgsComposerFrame

/-! # Theorems -/

/-! ## Properties of QgsAttributes::operator== -/

namespace QgsAttributes

variable {V : Type} [QVariantOps V]

theorem eqLoop_true_iff (self v : QgsAttributes V) (k : Nat)
    (hs : k ≤ self.length) (hv : k ≤ v.length) :
    eqLoop self v k = true ↔
      ∀ i, i < k → ∃ x y, self[i]? = some x ∧ v[i]? = some y ∧ slotsAgree x y = true := by
  induction k with
  | zero => simp [eqLoop]
  | succ k ih =>
    have hks : k < self.length := by omega
    have hkv : k < v.length := by omega
    have ih1 := ih (by omega) (by omega)
    have e1 : self[k]? = some self[k] := List.getElem?_eq_getElem hks
    have e2 : v[k]? = some v[k] := List.getElem?_eq_getElem hkv
    unfold eqLoop
    rw [e1, e2]
    simp only []
    by_cases hag : slotsAgree self[k] v[k] = true
    · have hag1 := hag
      unfold slotsAgree at hag1
      rw [hag1]
      simp only [Bool.not_true, Bool.false_eq_true, if_false]
      rw [ih1]
      constructor
      · intro h i hi
        by_cases hik : i = k
        · subst hik
          exact ⟨self[i], v[i], e1, e2, hag⟩
        · exact h i (by omega)
      · intro h i hi
        exact h i (by omega)
    · have hag1 : slotsAgree self[k] v[k] = false := by simpa using hag
      have hag2 := hag1
      unfold slotsAgree at hag2
      rw [hag2]
      simp only [Bool.not_false, if_true, Bool.false_eq_true, false_iff]
      intro h
      obtain ⟨x, y, hx, hy, hxy⟩ := h k (by omega)
      rw [e1] at hx
      rw [e2] at hy
      cases hx
      cases hy
      exact hag hxy


theorem opEq_true_imp (a b : QgsAttributes V) (h : opEq a b = true) :
    a.length = b.length ∧
    ∀ (i : Nat) (x y : V), a[i]? = some x → b[i]? = some y →
      QVariantOps.eq x y = true ∧ QVariantOps.isNull x = QVariantOps.isNull y := by
  unfold opEq at h
  by_cases hlen : a.length = b.length
  · have h1 : (a.length != b.length) = false := by simp [hlen]
    rw [h1] at h
    simp only [Bool.false_eq_true, if_false] at h
    rw [eqLoop_true_iff a b a.length (le_refl _) (by omega)] at h
    refine ⟨hlen, ?_⟩
    intro i x y hx hy
    have hi : i < a.length := by
      by_contra hc
      have : a[i]? = none := List.getElem?_eq_none (by omega)
      rw [this] at hx
      cases hx
    obtain ⟨x1, y1, hx1, hy1, hag⟩ := h i hi
    rw [hx] at hx1
    rw [hy] at hy1
    cases hx1
    cases hy1
    unfold slotsAgree at hag
    simpa using hag
  · have h1 : (a.length != b.length) = true := by simp [hlen]
    rw [h1] at h
    simp at h

theorem opEq_of_slots_agree (a b : QgsAttributes V) (hlen : a.length = b.length)
    (h : ∀ (i : Nat) (x y : V), a[i]? = some x → b[i]? = some y →
      QVariantOps.eq x y = true ∧ QVariantOps.isNull x = QVariantOps.isNull y) :
    opEq a b = true := by
  unfold opEq
  have h1 : (a.length != b.length) = false := by simp [hlen]
  rw [h1]
  simp only [Bool.false_eq_true, if_false]
  rw [eqLoop_true_iff a b a.length (le_refl _) (by omega)]
  intro i hi
  have hib : i < b.length := by omega
  refine ⟨a[i], b[i], List.getElem?_eq_getElem hi, List.getElem?_eq_getElem hib, ?_⟩
  have := h i a[i] b[i] (List.getElem?_eq_getElem hi) (List.getElem?_eq_getElem hib)
  unfold slotsAgree
  simpa using this

/-- C1: `QgsAttributes::operator==` returns true exactly when the two vectors
have the same number of slots and, at every index, the values compare equal
and the null flags are equal. -/
theorem opEq_true_iff (a b : QgsAttributes V) :
    opEq a b = true ↔
      a.length = b.length ∧
      ∀ (i : Nat) (x y : V), a[i]? = some x → b[i]? = some y →
        QVariantOps.eq x y = true ∧ QVariantOps.isNull x = QVariantOps.isNull y := by
  constructor
  · intro h
    exact opEq_true_imp a b h
  · rintro ⟨hlen, h⟩
    exact opEq_of_slots_agree a b hlen h

/-- C2: for two vectors of the same size, a slot that is null in one and not
null in the other at the same index makes `operator==` return false, whatever
the comparison of the two underlying values says. -/
theorem opEq_false_of_null_mismatch (a b : QgsAttributes V) (i : Nat) (x y : V)
    (_hlen : a.length = b.length) (hx : a[i]? = some x) (hy : b[i]? = some y)
    (hnull : QVariantOps.isNull x ≠ QVariantOps.isNull y) :
    opEq a b = false := by
  cases h : opEq a b with
  | false => rfl
  | true =>
    have := (opEq_true_imp a b h).2 i x y hx hy
    exact absurd this.2 hnull

/-- C2 at concrete inputs: an explicitly set empty string against a never-set
null string at field 0, and an explicit 0 against an unset integer; the
underlying values compare equal and the vectors are still unequal. -/
theorem opEq_false_of_null_mismatch_witness :
    SampleVariant.valueEq (.string "") .nullString = true ∧
    opEq [SampleVariant.string "", .int 5] [SampleVariant.nullString, .int 5] = false ∧
    SampleVariant.valueEq (.int 0) .nullInt = true ∧
    opEq [SampleVariant.string "a", .int 0] [SampleVariant.string "a", .nullInt] = false :=
  ⟨by decide,
   opEq_false_of_null_mismatch _ _ 0 (.string "") .nullString rfl rfl rfl (by decide),
   by decide,
   opEq_false_of_null_mismatch _ _ 1 (.int 0) .nullInt rfl rfl rfl (by decide)⟩

/-- C7: when the comparison of slot values is reflexive and symmetric,
`QgsAttributes::operator==` is reflexive and symmetric. -/
theorem opEq_refl_symm
    (hrefl : ∀ x : V, QVariantOps.eq x x = true)
    (hsymm : ∀ x y : V, QVariantOps.eq x y = QVariantOps.eq y x) :
    (∀ a : QgsAttributes V, opEq a a = true) ∧
    (∀ a b : QgsAttributes V, opEq a b = opEq b a) := by
  have himp : ∀ a b : QgsAttributes V, opEq a b = true → opEq b a = true := by
    intro a b h
    have h1 := opEq_true_imp a b h
    apply opEq_of_slots_agree b a h1.1.symm
    intro i x y hx hy
    have := h1.2 i y x hy hx
    exact ⟨by rw [hsymm]; exact this.1, this.2.symm⟩
  constructor
  · intro a
    apply opEq_of_slots_agree a a rfl
    intro i x y hx hy
    rw [hx] at hy
    cases hy
    exact ⟨hrefl x, rfl⟩
  · intro a b
    cases hab : opEq a b with
    | true => exact (himp a b hab).symm
    | false =>
      cases hba : opEq b a with
      | false => rfl
      | true =>
        have := himp b a hba
        rw [hab] at this
        cases this

theorem SampleVariant.valueEq_refl (x : SampleVariant) : SampleVariant.valueEq x x = true := by
  simp [SampleVariant.valueEq]

theorem SampleVariant.valueEq_symm (x y : SampleVariant) :
    SampleVariant.valueEq x y = SampleVariant.valueEq y x := by
  simp [SampleVariant.valueEq, eq_comm]

/-- C7 at concrete inputs: a vector with a null slot equals itself, and two
different vectors compare the same way in both orders. -/
theorem opEq_refl_symm_witness :
    opEq [SampleVariant.nullInt, .string "x"] [SampleVariant.nullInt, .string "x"] = true ∧
    opEq [SampleVariant.nullInt] [SampleVariant.int 0] =
      opEq [SampleVariant.int 0] [SampleVariant.nullInt] :=
  ⟨(opEq_refl_symm SampleVariant.valueEq_refl SampleVariant.valueEq_symm).1 _,
   (opEq_refl_symm SampleVariant.valueEq_refl SampleVariant.valueEq_symm).2 _ _⟩

end QgsAttributes

/-! ## Feature ids -/

/-- C8: `FID_IS_NEW` is true exactly for the negative 64-bit ids; the default
id 0 and every positive id are not new. -/
theorem FID_IS_NEW_iff_neg (fid : QgsFeatureId) :
    (FID_IS_NEW fid = true ↔ fid < 0) ∧
    FID_IS_NEW 0 = false ∧
    (0 < fid → FID_IS_NEW fid = false) := by
  refine ⟨by simp [FID_IS_NEW], by simp [FID_IS_NEW], ?_⟩
  intro h
  simp only [FID_IS_NEW, decide_eq_false_iff_not, not_lt]
  exact le_of_lt h

/-! ## The core store -/

namespace CoreStore

variable {V G : Type}

theorem getElem?_updateCell (s : CoreStore V G) (p q : Nat)
    (h : SharedCore V G → SharedCore V G) :
    (updateCell s p h)[q]? = if p = q then (s[q]?).map h else s[q]? := by
  unfold updateCell
  cases hp : s[p]? with
  | none =>
    by_cases hpq : p = q
    · subst hpq
      simp [hp]
    · simp [hpq]
  | some c =>
    have hlt : p < s.length := by
      by_contra hc
      rw [List.getElem?_eq_none (by omega)] at hp
      cases hp
    by_cases hpq : p = q
    · subst hpq
      simp [List.getElem?_set, hlt, hp]
    · simp [List.getElem?_set, hpq]

theorem length_updateCell (s : CoreStore V G) (p : Nat)
    (h : SharedCore V G → SharedCore V G) : (updateCell s p h).length = s.length := by
  unfold updateCell
  cases s[p]? <;> simp

theorem coreAt_incRef (s : CoreStore V G) (p q : Nat) :
    coreAt (incRef s p) q = coreAt s q := by
  unfold coreAt incRef
  rw [getElem?_updateCell]
  by_cases hpq : p = q
  · simp only [hpq, if_true]
    cases s[q]? <;> rfl
  · simp only [hpq, if_false]

theorem coreAt_decRef (s : CoreStore V G) (p q : Nat) :
    coreAt (decRef s p) q = coreAt s q := by
  unfold coreAt decRef
  rw [getElem?_updateCell]
  by_cases hpq : p = q
  · simp only [hpq, if_true]
    cases s[q]? <;> rfl
  · simp only [hpq, if_false]

theorem coreAt_modifyCore_ne (s : CoreStore V G) (p q : Nat)
    (g : QgsFeaturePrivate V G → QgsFeaturePrivate V G) (hpq : p ≠ q) :
    coreAt (modifyCore s p g) q = coreAt s q := by
  unfold coreAt modifyCore
  rw [getElem?_updateCell]
  simp only [hpq, if_false]

theorem coreAt_modifyCore_self (s : CoreStore V G) (p : Nat)
    (g : QgsFeaturePrivate V G → QgsFeaturePrivate V G) :
    coreAt (modifyCore s p g) p = (coreAt s p).map g := by
  unfold coreAt modifyCore
  rw [getElem?_updateCell]
  simp only [if_true]
  cases s[p]? <;> rfl

theorem coreAt_append_left (s t : CoreStore V G) (q : Nat) (hq : q < s.length) :
    coreAt (s ++ t) q = coreAt s q := by
  unfold coreAt
  rw [List.getElem?_append_left hq]

theorem refCount_incRef_self (s : CoreStore V G) (p : Nat) (hp : p < s.length) :
    refCount (incRef s p) p = refCount s p + 1 := by
  unfold refCount incRef
  rw [getElem?_updateCell]
  simp only [if_true]
  rw [List.getElem?_eq_getElem hp]
  rfl

theorem refCount_decRef_ne (s : CoreStore V G) (p q : Nat) (hpq : p ≠ q) :
    refCount (decRef s p) q = refCount s q := by
  unfold refCount decRef
  rw [getElem?_updateCell]
  simp only [hpq, if_false]

theorem lt_length_of_refCount_pos (s : CoreStore V G) (p : Nat) (hp : 1 ≤ refCount s p) :
    p < s.length := by
  by_contra hc
  unfold refCount at hp
  rw [List.getElem?_eq_none (by omega)] at hp
  simp at hp

end CoreStore

/-! ## QgsFeature -/

namespace QgsFeature

open CoreStore

section
variable {V G : Type}

/-- A write through a handle whose core is shared leaves that core as it was. -/
theorem coreAt_mutate_shared (s : CoreStore V G) (b : QgsFeature)
    (g : QgsFeaturePrivate V G → QgsFeaturePrivate V G) (hshared : 2 ≤ refCount s b.d) :
    coreAt (mutate s b g).1 b.d = coreAt s b.d := by
  have hlt : b.d < s.length := lt_length_of_refCount_pos s b.d (by omega)
  have hget : s[b.d]? = some s[b.d] := List.getElem?_eq_getElem hlt
  have href : s[b.d].ref > 1 := by
    unfold refCount at hshared
    rw [hget] at hshared
    simpa using hshared
  have hdet : detachForWrite s b = ((s.decRef b.d) ++ [⟨1, s[b.d].core⟩], ⟨s.length⟩) := by
    unfold detachForWrite
    rw [hget]
    simp [href]
  unfold mutate
  rw [hdet]
  simp only []
  rw [coreAt_modifyCore_ne _ _ _ _ (by omega)]
  rw [coreAt_append_left _ _ _ (by unfold decRef; rw [length_updateCell]; exact hlt)]
  exact coreAt_decRef s b.d b.d

/-- A write through a handle reads back, through the handle the call returns,
as the written core. -/
theorem coreAt_mutate_self (s : CoreStore V G) (b : QgsFeature)
    (g : QgsFeaturePrivate V G → QgsFeaturePrivate V G) :
    coreAt (mutate s b g).1 (mutate s b g).2.d = (coreAt s b.d).map g := by
  unfold mutate
  simp only []
  rw [coreAt_modifyCore_self]
  congr 1
  unfold detachForWrite
  cases hget : s[b.d]? with
  | none => rfl
  | some c =>
    simp only []
    by_cases href : c.ref > 1
    · simp only [href, if_true]
      unfold coreAt
      have hlen : (s.decRef b.d).length = s.length := by
        unfold decRef; rw [length_updateCell]
      rw [← hlen, List.getElem?_concat_length, hget]
    · simp only [href, if_false]

theorem observe_congr (s t : CoreStore V G) (a : QgsFeature)
    (h : coreAt t a.d = coreAt s a.d) : observe t a = observe s a := by
  unfold observe id attributes geometry fields isValid
  rw [h]

/-- C4: `setAttribute( field, attr )` on a live feature returns false when
`field` is negative or not less than the number of slots, and then the feature
reads as before (id, attributes, geometry, fields, validity); when `field` is
in range it returns true, slot `field` then holds `attr` and the feature is
valid. -/
theorem setAttribute_spec (s : CoreStore V G) (f : QgsFeature) (c : QgsFeaturePrivate V G)
    (field : Int) (attr : V) (hc : coreAt s f.d = some c) :
    ((field < 0 ∨ (c.attributes.length : Int) ≤ field) →
      (setAttribute s f field attr).1 = false ∧
      observe (setAttribute s f field attr).2.1 (setAttribute s f field attr).2.2
        = observe s f) ∧
    ((0 ≤ field ∧ field < (c.attributes.length : Int)) →
      (setAttribute s f field attr).1 = true ∧
      attributes (setAttribute s f field attr).2.1 (setAttribute s f field attr).2.2
        = some (c.attributes.set field.toNat attr) ∧
      (c.attributes.set field.toNat attr)[field.toNat]? = some attr ∧
      isValid (setAttribute s f field attr).2.1 (setAttribute s f field attr).2.2
        = some true) := by
  constructor
  · intro hout
    have hr : c.inRange field = false := by
      unfold QgsFeaturePrivate.inRange
      rcases hout with h | h
      · simp [h]
      · simp [h]
    unfold setAttribute
    rw [hc]
    simp [hr]
  · rintro ⟨h0, h1⟩
    have hr : c.inRange field = true := by
      unfold QgsFeaturePrivate.inRange
      simp
      omega
    have hset : setAttribute s f field attr
        = (true, mutate s f (fun c => c.writeSlot field attr)) := by
      unfold setAttribute
      rw [hc]
      simp [hr]
    have hcore := coreAt_mutate_self s f (fun c => c.writeSlot field attr)
    rw [hc] at hcore
    rw [hset]
    refine ⟨rfl, ?_, ?_, ?_⟩
    · unfold attributes
      rw [hcore]
      rfl
    · rw [List.getElem?_set]
      have : field.toNat < c.attributes.length := by omega
      simp [this]
    · unfold isValid
      rw [hcore]
      rfl

/-- C4 at concrete inputs: index 2 is out of range for the two-slot sample
feature, index 1 is in range. -/
theorem setAttribute_spec_witness :
    coreAt sampleStore sampleFeature.d = some sampleCore ∧
    (setAttribute sampleStore sampleFeature 2 (SampleVariant.int 3)).1 = false ∧
    (setAttribute sampleStore sampleFeature 1 (SampleVariant.int 3)).1 = true ∧
    attributes (setAttribute sampleStore sampleFeature 1 (SampleVariant.int 3)).2.1
      (setAttribute sampleStore sampleFeature 1 (SampleVariant.int 3)).2.2
      = some [SampleVariant.string "Springfield", SampleVariant.int 3] :=
  ⟨by decide,
   ((setAttribute_spec sampleStore sampleFeature sampleCore 2 (SampleVariant.int 3)
      (by decide)).1 (by decide)).1,
   ((setAttribute_spec sampleStore sampleFeature sampleCore 1 (SampleVariant.int 3)
      (by decide)).2 (by decide)).1,
   ((setAttribute_spec sampleStore sampleFeature sampleCore 1 (SampleVariant.int 3)
      (by decide)).2 (by decide)).2.1⟩

/-- C6, as the claim states it, fails for the index form: `deleteAttribute( int )`
is a `void` function, so no reading of what it returns tells the out-of-range
call (index 5 on two slots) from the call that succeeds (index 0). -/
theorem deleteAttribute_index_returns_no_failure :
    ¬ ∃ failure : Unit → Bool,
      failure (deleteAttribute sampleStore sampleFeature 5).1 = true ∧
      failure (deleteAttribute sampleStore sampleFeature 0).1 = false := by
  rintro ⟨failure, h1, h2⟩
  have : (deleteAttribute sampleStore sampleFeature 5).1
      = (deleteAttribute sampleStore sampleFeature 0).1 := rfl
  rw [this, h2] at h1
  cases h1

/-- C6, amended: on a live feature, `deleteAttribute( int )` with an index out
of range leaves the attribute vector unchanged (it returns nothing), and
`deleteAttribute( name )` with a name that does not resolve to an index returns
false and leaves the attribute vector unchanged. -/
theorem deleteAttribute_failure_unchanged (s : CoreStore V G) (f : QgsFeature)
    (c : QgsFeaturePrivate V G) (hc : coreAt s f.d = some c) :
    (∀ field : Int, (field < 0 ∨ (c.attributes.length : Int) ≤ field) →
      attributes (deleteAttribute s f field).2.1 (deleteAttribute s f field).2.2
        = some c.attributes) ∧
    (∀ name : String, c.fieldNameIndex name = -1 →
      (deleteAttributeByName s f name).1 = false ∧
      attributes (deleteAttributeByName s f name).2.1 (deleteAttributeByName s f name).2.2
        = some c.attributes) := by
  constructor
  · intro field hout
    have hr : c.inRange field = false := by
      unfold QgsFeaturePrivate.inRange
      rcases hout with h | h
      · simp [h]
      · simp [h]
    unfold deleteAttribute attributes
    rw [hc]
    simp [hr, hc]
  · intro name hname
    unfold deleteAttributeByName attributes
    rw [hc]
    simp [hname, hc]

/-- C6, amended, at concrete inputs: index 5, index -1 and the name "area" on
the sample feature, whose fields are "name" and "pop". -/
theorem deleteAttribute_failure_unchanged_witness :
    coreAt sampleStore sampleFeature.d = some sampleCore ∧
    attributes (deleteAttribute sampleStore sampleFeature 5).2.1
      (deleteAttribute sampleStore sampleFeature 5).2.2 = some sampleCore.attributes ∧
    attributes (deleteAttribute sampleStore sampleFeature (-1)).2.1
      (deleteAttribute sampleStore sampleFeature (-1)).2.2 = some sampleCore.attributes ∧
    (deleteAttributeByName sampleStore sampleFeature "area").1 = false ∧
    attributes (deleteAttribute sampleStore sampleFeature 0).2.1
      (deleteAttribute sampleStore sampleFeature 0).2.2 = some [SampleVariant.invalid] :=
  ⟨by decide,
   (deleteAttribute_failure_unchanged sampleStore sampleFeature sampleCore (by decide)).1 5
     (by decide),
   (deleteAttribute_failure_unchanged sampleStore sampleFeature sampleCore (by decide)).1 (-1)
     (by decide),
   ((deleteAttribute_failure_unchanged sampleStore sampleFeature sampleCore (by decide)).2
     "area" (by decide)).1,
   by decide⟩

end

variable {V G : Type} [QVariantOps V]

/-- No writing call through a handle that shares its core changes that core. -/
theorem coreAt_run_shared (op : Setter V G) (s : CoreStore V G) (b : QgsFeature)
    (hshared : 2 ≤ refCount s b.d) :
    coreAt (op.run s b).1 b.d = coreAt s b.d := by
  cases op with
  | setId id => exact coreAt_mutate_shared s b _ hshared
  | setAttributes attrs => exact coreAt_mutate_shared s b _ hshared
  | setAttribute field attr =>
    simp only [Setter.run, setAttribute]
    cases hc : coreAt s b.d with
    | none => exact hc
    | some c =>
      simp only []
      split_ifs
      · exact (coreAt_mutate_shared s b _ hshared).trans hc
      · exact hc
  | setAttributeByName name value =>
    simp only [Setter.run, setAttributeByName, setAttribute]
    cases hc : coreAt s b.d with
    | none => exact hc
    | some c =>
      simp only []
      split_ifs
      · exact hc
      · exact (coreAt_mutate_shared s b _ hshared).trans hc
      · exact hc
  | initAttributes fieldCount => exact coreAt_mutate_shared s b _ hshared
  | deleteAttribute field =>
    simp only [Setter.run, deleteAttribute]
    cases hc : coreAt s b.d with
    | none => exact hc
    | some c =>
      simp only []
      split_ifs
      · exact (coreAt_mutate_shared s b _ hshared).trans hc
      · exact hc
  | deleteAttributeByName name =>
    simp only [Setter.run, deleteAttributeByName]
    cases hc : coreAt s b.d with
    | none => exact hc
    | some c =>
      simp only []
      split_ifs
      · exact hc
      · exact (coreAt_mutate_shared s b _ hshared).trans hc
      · exact hc
  | setValid validity => exact coreAt_mutate_shared s b _ hshared
  | setGeometry geometry => exact coreAt_mutate_shared s b _ hshared
  | clearGeometry => exact coreAt_mutate_shared s b _ hshared
  | setFields fields initAttrs => exact coreAt_mutate_shared s b _ hshared

theorem sampleStore_eq : sampleStore = [⟨1, sampleCore⟩] := by decide

theorem sampleFeature_eq : sampleFeature = ⟨0⟩ := by decide

/-- C3: copy-on-write isolation. For a live feature `a`, copying `a` to `b`
(by the copy constructor, or by assignment to an existing handle `b`) and then
performing any writing call on `b` leaves every observation of `a` (id,
attributes, geometry, fields, validity) as it was before. -/
theorem copy_on_write_isolation (s : CoreStore V G) (a : QgsFeature) (op : Setter V G)
    (hlive : 1 ≤ refCount s a.d) :
    observe (op.run (copyConstruct s a).1 (copyConstruct s a).2).1 a = observe s a ∧
    ∀ b : QgsFeature, (b.d = a.d → 2 ≤ refCount s a.d) →
      observe (op.run (assign s b a).1 (assign s b a).2).1 a = observe s a := by
  have hlt : a.d < s.length := lt_length_of_refCount_pos s a.d hlive
  constructor
  · apply observe_congr
    unfold copyConstruct
    have h2 : 2 ≤ refCount (s.incRef a.d) a.d := by
      rw [refCount_incRef_self s a.d hlt]; omega
    have := coreAt_run_shared op (s.incRef a.d) ⟨a.d⟩ h2
    exact this.trans (coreAt_incRef s a.d a.d)
  · intro b hb
    apply observe_congr
    unfold assign
    by_cases hab : a.d = b.d
    · simp only [hab, if_true]
      have h2 : 2 ≤ refCount s b.d := by rw [← hab]; exact hb hab.symm
      exact coreAt_run_shared op s b h2
    · simp only [hab, if_false]
      have h2 : 2 ≤ refCount ((s.incRef a.d).decRef b.d) a.d := by
        rw [refCount_decRef_ne _ _ _ (fun h => hab h.symm), refCount_incRef_self s a.d hlt]
        omega
      have := coreAt_run_shared op ((s.incRef a.d).decRef b.d) ⟨a.d⟩ h2
      exact this.trans ((coreAt_decRef _ b.d a.d).trans (coreAt_incRef s a.d a.d))

/-- C3 at concrete inputs: the sample feature is copied and the copy gets a
new id; the original still reads id 7 while the copy reads 99. The same holds
when the sample feature is assigned to an existing second feature, which is
then given new attributes. -/
theorem copy_on_write_isolation_witness :
    1 ≤ refCount sampleStore sampleFeature.d ∧
    observe ((Setter.setId 99).run (copyConstruct sampleStore sampleFeature).1
      (copyConstruct sampleStore sampleFeature).2).1 sampleFeature
      = observe sampleStore sampleFeature ∧
    QgsFeature.id sampleStore sampleFeature = some 7 ∧
    QgsFeature.id ((Setter.setId 99).run (copyConstruct sampleStore sampleFeature).1
      (copyConstruct sampleStore sampleFeature).2).1
      ((Setter.setId 99).run (copyConstruct sampleStore sampleFeature).1
      (copyConstruct sampleStore sampleFeature).2).2 = some 99 ∧
    observe ((Setter.setAttributes [SampleVariant.int 1]).run
      (assign sampleState2.1 sampleState2.2 sampleFeature).1
      (assign sampleState2.1 sampleState2.2 sampleFeature).2).1 sampleFeature
      = observe sampleState2.1 sampleFeature ∧
    QgsFeature.attributes ((Setter.setAttributes [SampleVariant.int 1]).run
      (assign sampleState2.1 sampleState2.2 sampleFeature).1
      (assign sampleState2.1 sampleState2.2 sampleFeature).2).1
      ((Setter.setAttributes [SampleVariant.int 1]).run
      (assign sampleState2.1 sampleState2.2 sampleFeature).1
      (assign sampleState2.1 sampleState2.2 sampleFeature).2).2
      = some [SampleVariant.int 1] :=
  ⟨by decide,
   (copy_on_write_isolation sampleStore sampleFeature (Setter.setId 99) (by decide)).1,
   by decide, by decide,
   (copy_on_write_isolation sampleState2.1 sampleFeature
     (Setter.setAttributes [SampleVariant.int 1]) (by decide)).2 sampleState2.2 (by decide),
   by decide⟩

end QgsFeature

/-! ## The stream operators -/

theorem getUInt_putUInt (w n : Nat) (rest : List Nat) :
    getUInt w (putUInt w n ++ rest) = some (n % 256 ^ w, rest) := by
  induction w with
  | zero => simp [getUInt, putUInt, Nat.mod_one]
  | succ w ih =>
    have hstep : getUInt (w + 1) ((n / 256 ^ w % 256) :: (putUInt w n ++ rest))
        = some (n / 256 ^ w % 256 * 256 ^ w + n % 256 ^ w, rest) := by
      rw [getUInt, ih]
    have hval : n / 256 ^ w % 256 * 256 ^ w + n % 256 ^ w = n % 256 ^ (w + 1) := by
      rw [Nat.mod_pow_succ]
      ring
    rw [← hval, ← hstep]
    rfl

theorem getUInt_putUInt_of_lt (w n : Nat) (rest : List Nat) (hn : n < 256 ^ w) :
    getUInt w (putUInt w n ++ rest) = some (n, rest) := by
  rw [getUInt_putUInt, Nat.mod_eq_of_lt hn]

theorem getInt64_putInt64 (n : Int) (rest : List Nat) (hn : isQint64 n) :
    getInt64 (putInt64 n ++ rest) = some (n, rest) := by
  obtain ⟨hlo, hhi⟩ := hn
  have hnn : 0 ≤ n % 2 ^ 64 := Int.emod_nonneg n (by norm_num)
  have hlt : n % 2 ^ 64 < 2 ^ 64 := Int.emod_lt_of_pos n (by norm_num)
  have hcast : ((n % 2 ^ 64).toNat : Int) = n % 2 ^ 64 := Int.toNat_of_nonneg hnn
  have hu : (n % 2 ^ 64).toNat < 256 ^ 8 := by
    have : ((n % 2 ^ 64).toNat : Int) < 2 ^ 64 := by rw [hcast]; exact hlt
    have h2 : ((256 ^ 8 : Nat) : Int) = 2 ^ 64 := by norm_num
    omega
  unfold getInt64 putInt64
  rw [getUInt_putUInt_of_lt 8 _ rest hu]
  simp only []
  congr 2
  by_cases hneg : n < 0
  · have hmod : n % 2 ^ 64 = n + 2 ^ 64 := by
      rw [← Int.add_mul_emod_self (a := n) (b := 1) (c := 2 ^ 64), one_mul]
      exact Int.emod_eq_of_lt (by omega) (by omega)
    have hge : ¬ (n % 2 ^ 64).toNat < 2 ^ 63 := by
      intro h
      have : ((n % 2 ^ 64).toNat : Int) < 2 ^ 63 := by exact_mod_cast h
      rw [hcast, hmod] at this
      omega
    rw [if_neg hge, hcast, hmod]
    ring
  · have hmod : n % 2 ^ 64 = n := Int.emod_eq_of_lt (by omega) (by omega)
    have hsmall : (n % 2 ^ 64).toNat < 2 ^ 63 := by
      have : ((n % 2 ^ 64).toNat : Int) < 2 ^ 63 := by rw [hcast, hmod]; exact hhi
      exact_mod_cast this
    rw [if_pos hsmall, hcast, hmod]

theorem getMany_putMany {α : Type} (put : α → List Nat)
    (get : List Nat → Option (α × List Nat)) (xs : List α) (rest : List Nat)
    (hx : ∀ x ∈ xs, ∀ r, get (put x ++ r) = some (x, r)) :
    getMany get xs.length (putMany put xs ++ rest) = some (xs, rest) := by
  induction xs with
  | nil => simp [getMany, putMany]
  | cons x xs ih =>
    have h1 := hx x (List.mem_cons_self x xs) (putMany put xs ++ rest)
    have h2 := ih (fun y hy r => hx y (List.mem_cons_of_mem x hy) r)
    simp only [putMany, List.length_cons, getMany, List.append_assoc, h1, h2]

namespace SlotCodec

variable {V : Type} [QVariantOps V]

theorem getSlot_putSlot (k : SlotCodec V) (v : V) (rest : List Nat) (hv : k.Faithful v) :
    k.getSlot (k.putSlot v ++ rest) = some (v, rest) := by
  unfold getSlot putSlot
  have htag : k.typeTag v < 256 ^ 4 := by
    have := hv.tag_lt
    norm_num at this ⊢
    exact this
  rw [List.append_assoc, getUInt_putUInt_of_lt 4 _ _ htag]
  cases hnull : QVariantOps.isNull v with
  | true =>
    simp [hv.null_canon hnull]
  | false =>
    simp [hv.payload hnull rest]

end SlotCodec

namespace QgsFeaturePrivate

variable {V G : Type} [QVariantOps V]

theorem getOptGeometry_put (kg : GeometryCodec G) (geometry : Option G) (rest : List Nat)
    (hgeom : ∀ g, geometry = some g →
      ∀ r, kg.getGeometry (kg.putGeometry g ++ r) = some (g, r)) :
    getOptGeometry kg (putOptGeometry kg geometry ++ rest) = some (geometry, rest) := by
  cases geometry with
  | none => simp [getOptGeometry, putOptGeometry]
  | some g => simp [getOptGeometry, putOptGeometry, hgeom g rfl rest]

end QgsFeaturePrivate

theorem SampleVariant.getChar_put (c : Char) (r : List Nat) :
    SampleVariant.getChar (SampleVariant.putChar c ++ r) = some (c, r) := by
  have hc : c.toNat < 256 ^ 4 := by
    have := c.val.val.isLt
    simpa [Char.toNat, UInt32.size] using this
  unfold SampleVariant.getChar SampleVariant.putChar
  rw [getUInt_putUInt_of_lt 4 _ _ hc]
  simp [Char.ofNat_toNat]

theorem sampleSlotCodec_faithful (v : SampleVariant) (hv : v.representable) :
    sampleSlotCodec.Faithful v := by
  constructor
  · cases v <;> simp only [sampleSlotCodec, SampleVariant.typeTag] <;> norm_num
  · intro hnull
    cases v <;>
      first
      | rfl
      | (exfalso; revert hnull; simp [QVariantOps.isNull, SampleVariant.nullFlag])
  · intro hnull rest
    cases v with
    | invalid => exact absurd hnull (by simp [QVariantOps.isNull, SampleVariant.nullFlag])
    | nullInt => exact absurd hnull (by simp [QVariantOps.isNull, SampleVariant.nullFlag])
    | nullString => exact absurd hnull (by simp [QVariantOps.isNull, SampleVariant.nullFlag])
    | int n =>
      have hn : isQint64 n := hv
      simp [sampleSlotCodec, SampleVariant.typeTag, SampleVariant.getPayload,
        SampleVariant.putPayload, getInt64_putInt64 n rest hn]
    | string str =>
      have hs : str.length < 256 ^ 4 := by
        have : str.length < 2 ^ 32 := hv
        norm_num at this ⊢
        exact this
      have hchars : getMany SampleVariant.getChar str.length
          (putMany SampleVariant.putChar str.data ++ rest) = some (str.data, rest) :=
        getMany_putMany SampleVariant.putChar SampleVariant.getChar
          str.data rest (fun c _ r => SampleVariant.getChar_put c r)
      simp [sampleSlotCodec, SampleVariant.typeTag, SampleVariant.getPayload,
        SampleVariant.putPayload, getUInt_putUInt_of_lt 4 _ _ hs, hchars]

theorem sampleGeometryCodec_roundtrip (g : SampleGeometry) (r : List Nat)
    (hg : g.length < 2 ^ 32) :
    sampleGeometryCodec.getGeometry (sampleGeometryCodec.putGeometry g ++ r) = some (g, r) := by
  have hlen : g.length < 256 ^ 4 := by
    norm_num at hg ⊢
    exact hg
  simp [sampleGeometryCodec, getUInt_putUInt_of_lt 4 _ _ hlen]

/-- The bytes of a new feature (id -1) without attributes and geometry:
the id in two's complement, a zero count and a zero presence flag. -/
theorem serialize_new_feature_bytes :
    QgsFeaturePrivate.serialize sampleSlotCodec sampleGeometryCodec
      (QgsFeaturePrivate.init (-1)) =
      [255, 255, 255, 255, 255, 255, 255, 255, 0, 0, 0, 0, 0] := by
  decide

namespace QgsComposerFrame

theorem qMax_eq_max (a b : ℚ) : qMax a b = max a b := by
  unfold qMax
  split
  · rename_i h
    exact (max_eq_right (le_of_lt h)).symm
  · rename_i h
    exact (max_eq_left (not_lt.mp h)).symm

/-- C9: without a multiframe `setSceneRect` hands the requested rectangle on
unchanged; with one, the rectangle handed on keeps the top-left corner, its
width is the maximum of the minimum width and the fixed width (when that is
positive, the requested width otherwise), likewise for the height, so the size
is never below the minimum frame size. -/
theorem setSceneRect_spec (f : QgsComposerFrame) (r : QRectF) :
    (f.mMultiFrame = none → setSceneRect f r = r) ∧
    (∀ mf, f.mMultiFrame = some mf →
      (setSceneRect f r).x = r.x ∧ (setSceneRect f r).y = r.y ∧
      (setSceneRect f r).width =
        max (mf.minFrameSize (mf.frameIndex f.self)).width
          (if (mf.fixedFrameSize (mf.frameIndex f.self)).width > 0
            then (mf.fixedFrameSize (mf.frameIndex f.self)).width else r.width) ∧
      (setSceneRect f r).height =
        max (mf.minFrameSize (mf.frameIndex f.self)).height
          (if (mf.fixedFrameSize (mf.frameIndex f.self)).height > 0
            then (mf.fixedFrameSize (mf.frameIndex f.self)).height else r.height) ∧
      (mf.minFrameSize (mf.frameIndex f.self)).width ≤ (setSceneRect f r).width ∧
      (mf.minFrameSize (mf.frameIndex f.self)).height ≤ (setSceneRect f r).height) := by
  constructor
  · intro h
    simp [setSceneRect, h]
  · intro mf h
    have hw : (setSceneRect f r).width =
        max (mf.minFrameSize (mf.frameIndex f.self)).width
          (if (mf.fixedFrameSize (mf.frameIndex f.self)).width > 0
            then (mf.fixedFrameSize (mf.frameIndex f.self)).width else r.width) := by
      simp only [setSceneRect, h, QRectF.setWidth, QRectF.setHeight, qMax_eq_max]
      split_ifs <;> rfl
    have hh : (setSceneRect f r).height =
        max (mf.minFrameSize (mf.frameIndex f.self)).height
          (if (mf.fixedFrameSize (mf.frameIndex f.self)).height > 0
            then (mf.fixedFrameSize (mf.frameIndex f.self)).height else r.height) := by
      simp only [setSceneRect, h, QRectF.setWidth, QRectF.setHeight, qMax_eq_max]
      split_ifs <;> rfl
    refine ⟨?_, ?_, hw, hh, ?_, ?_⟩
    · simp only [setSceneRect, h, QRectF.setWidth, QRectF.setHeight]
      split_ifs <;> rfl
    · simp only [setSceneRect, h, QRectF.setWidth, QRectF.setHeight]
      split_ifs <;> rfl
    · rw [hw]; exact le_max_left _ _
    · rw [hh]; exact le_max_left _ _

/-- C10: `isEmpty` returns true exactly when the frame has no multiframe or the
multiframe's total content height is at most the top of the frame's section;
in particular a section starting exactly at the content's end is empty. -/
theorem isEmpty_iff (f : QgsComposerFrame) :
    (isEmpty f = true ↔
      f.mMultiFrame = none ∨
      ∃ mf, f.mMultiFrame = some mf ∧ mf.totalSize.height ≤ f.mSection.top) ∧
    (∀ mf, f.mMultiFrame = some mf → mf.totalSize.height = f.mSection.top →
      isEmpty f = true) := by
  constructor
  · unfold isEmpty
    cases hmf : f.mMultiFrame with
    | none => simp
    | some mf => simp
  · intro mf hmf htop
    unfold isEmpty
    rw [hmf]
    simp [htop]

/-- C11, as the claim states it, fails for the last case: the code returns
`tr( "<frame>" )`, so with a German translation of "<frame>" installed a frame
with an empty id and no multiframe is displayed as "<Rahmen>", not as the text
"<frame>". -/
theorem displayName_fallback_is_translated :
    displayName sampleGermanTr (sampleFrame "" none) = "<Rahmen>" ∧
    displayName sampleGermanTr (sampleFrame "" none) ≠ "<frame>" := by
  constructor <;> decide

/-- C11, amended: `displayName` returns the frame's own id when that id is not
empty, whether or not a multiframe is attached; otherwise the multiframe's
display name when a multiframe is attached; otherwise the translation
`tr( "<frame>" )` of the text "<frame>", which is the text "<frame>" itself
when no translation of it is installed. -/
theorem displayName_spec (tr : String → String) (f : QgsComposerFrame) :
    (f.id ≠ "" → displayName tr f = f.id) ∧
    (f.id = "" → ∀ mf, f.mMultiFrame = some mf → displayName tr f = mf.displayName) ∧
    (f.id = "" → f.mMultiFrame = none → displayName tr f = tr "<frame>") ∧
    (f.id = "" → f.mMultiFrame = none → tr "<frame>" = "<frame>" →
      displayName tr f = "<frame>") := by
  have hnone : f.id = "" → f.mMultiFrame = none → displayName tr f = tr "<frame>" := by
    intro hid hmf
    have he : f.id.isEmpty = true := (String.isEmpty_iff f.id).mpr hid
    unfold displayName
    rw [he, hmf]
    rfl
  refine ⟨?_, ?_, hnone, ?_⟩
  · intro hid
    have he : f.id.isEmpty = false := by
      cases h : f.id.isEmpty with
      | false => rfl
      | true => exact absurd ((String.isEmpty_iff f.id).mp h) hid
    unfold displayName
    rw [he]
    rfl
  · intro hid mf hmf
    have he : f.id.isEmpty = true := (String.isEmpty_iff f.id).mpr hid
    unfold displayName
    rw [he, hmf]
    rfl
  · intro hid hmf htr
    rw [hnone hid hmf, htr]

/-- C11, amended, at concrete inputs, without a translation installed: a frame with id
"map frame" and a multiframe shows its own id, a frame with an empty id shows
the multiframe's name "HTML 1", and a frame with neither shows "<frame>". -/
theorem displayName_spec_witness :
    displayName (fun t => t) (sampleFrame "map frame" (some sampleMultiFrame)) = "map frame" ∧
    displayName (fun t => t) (sampleFrame "" (some sampleMultiFrame)) = "HTML 1" ∧
    displayName (fun t => t) (sampleFrame "" none) = "<frame>" :=
  ⟨(displayName_spec (fun t => t) (sampleFrame "map frame" (some sampleMultiFrame))).1
     (by decide),
   (displayName_spec (fun t => t) (sampleFrame "" (some sampleMultiFrame))).2.1 rfl
     sampleMultiFrame rfl,
   (displayName_spec (fun t => t) (sampleFrame "" none)).2.2.2 rfl rfl rfl⟩

end QgsComposerFrame

end Qgs
